import Mathlib

/-!
Verification of the RDT 3.0 receiver.

A shallow embedding of `receiver.py`, the receiving endpoint of an
alternating-bit (stop-and-wait) reliable-data-transfer protocol.  Python
strings are modelled as `List Char`; the additive checksum sums the UTF-8
byte values of the string exactly as `msg.encode("utf-8")` followed by the
byte loop does.  The per-iteration body of the receive loop becomes a pure
step function on an explicit state record; the surrounding socket loop
(empty read terminating the session, the `except ConnectionAbortedError`
clause) is modelled separately as a transition on a list of transport
events.  Fallible spots of the body — `int(recv_message[0])` raising
`ValueError` on a non-digit character — are modelled with `Option`.
-/

/-- UTF-8 encoding of a single character as its list of byte values.
The source calls `msg.encode("utf-8")` on whole strings; we model a string
as a `List Char` and encode it character by character. -/
def charBytes (c : Char) : List Nat :=
  let n := c.toNat
  if n < 128 then [n]
  else if n < 2048 then [192 + n / 64, 128 + n % 64]
  else if n < 65536 then [224 + n / 4096, 128 + n / 64 % 64, 128 + n % 64]
  else [240 + n / 262144, 128 + n / 4096 % 64, 128 + n / 64 % 64, 128 + n % 64]

/-- The accumulator loop of `checksum`: the sum of every byte value of the
UTF-8 encoding of the message (`for i in range(0, len(msg), 1): s += msg[i]`). -/
def byteSum (msg : List Char) : Nat :=
  ((msg.map charBytes).flatten).sum

/-- Little-endian base-10 digits computed with explicit fuel, so that the
definition is structurally recursive and evaluates inside the kernel.
Proved equal to Mathlib's `Nat.digits 10` below. -/
def decDigitsAux : Nat → Nat → List Nat
  | 0, _ => []
  | _ + 1, 0 => []
  | fuel + 1, n + 1 => ((n + 1) % 10) :: decDigitsAux fuel ((n + 1) / 10)

/-- Little-endian base-10 digits of `n` (empty for `0`). -/
def decDigits (n : Nat) : List Nat := decDigitsAux n n

theorem decDigitsAux_eq (fuel n : Nat) (h : n ≤ fuel) :
    decDigitsAux fuel n = Nat.digits 10 n := by
  induction fuel generalizing n with
  | zero =>
    have hn : n = 0 := Nat.le_zero.mp h
    subst hn; simp [decDigitsAux]
  | succ fuel ih =>
    cases n with
    | zero => simp [decDigitsAux]
    | succ n =>
      rw [decDigitsAux, Nat.digits_def' (b := 10) (by norm_num) (Nat.succ_pos n)]
      congr 1
      have hdiv : (n + 1) / 10 < n + 1 := Nat.div_lt_self (Nat.succ_pos n) (by norm_num)
      exact ih ((n + 1) / 10) (by omega)

theorem decDigits_eq (n : Nat) : decDigits n = Nat.digits 10 n :=
  decDigitsAux_eq n n le_rfl

/-- Big-endian decimal digit characters of `n` (empty for `0`). -/
def decimalDigits (n : Nat) : List Char :=
  ((decDigits n).map Nat.digitChar).reverse

/-- Left-pad a character list with zero characters to width five; composed
with `decimalDigits` this renders Python's `format(s, "05d")` (note that
`format(0, "05d")` is `"00000"`, which the padding of the empty digit list
also produces). -/
def pad5 (l : List Char) : List Char :=
  List.replicate (5 - l.length) '0' ++ l

/-- The `checksum(msg)` function: the sum of all UTF-8 byte values of `msg`,
formatted as a decimal string left-padded with zeros to width five
(`format(s, "05d")`). -/
def checksum (msg : List Char) : List Char :=
  pad5 (decimalDigits (byteSum msg))

/-- The `checksum_verifier(msg)` function: `False` when `msg` is shorter
than the fixed packet length 30; otherwise compares the checksum recomputed
over `msg[:-5]` with the trailing five characters `msg[-5:]`. -/
def checksum_verifier (msg : List Char) : Bool :=
  if msg.length < 30 then false
  else checksum (msg.take (msg.length - 5)) == msg.drop (msg.length - 5)

/-- The twenty-space placeholder payload (`spaces` in the source). -/
def spaces : List Char := List.replicate 20 ' '

/-- Python `str` / `"{}".format` rendering of a natural number in decimal. -/
def natStr (n : Nat) : List Char :=
  if n = 0 then ['0'] else decimalDigits n

/-- The `make_packet(ACK)` closure: the acknowledgment packet — two spaces,
the ack digit, a space, the twenty placeholder spaces, a space — followed
by the checksum of those 25 characters. -/
def make_packet (ACK : Nat) : List Char :=
  let packet := [' ', ' '] ++ natStr ACK ++ [' '] ++ spaces ++ [' ']
  packet ++ checksum packet

/-- The `is_corrupt(recv_message)` closure:
`not checksum_verifier(recv_message)`. -/
def is_corrupt (recv_message : List Char) : Bool :=
  ! checksum_verifier recv_message

/-- Python `int(c)` on a one-character string: the digit's value on the
decimal digit characters occurring in this protocol's packets, and a raised
`ValueError` (modelled as `none`) on any other character. -/
def intOfChar (c : Char) : Option Nat :=
  if c.isDigit then some (c.toNat - 48) else none

/-- The receiver session's mutable state: the reassembly buffer `data`, the
three statistics counters, and the two protocol bits `ACK` and `SEQ`. -/
structure RState where
  data : List Char
  total_packet_sent : Nat
  total_packet_recv : Nat
  total_corrupted_pkt_recv : Nat
  ACK : Nat
  SEQ : Nat
deriving DecidableEq

/-- The state right after the channel is established: empty buffer, zero
counters, `ACK = 0`, `SEQ = 0`. -/
def initState : RState :=
  { data := [], total_packet_sent := 0, total_packet_recv := 0,
    total_corrupted_pkt_recv := 0, ACK := 0, SEQ := 0 }

/-- The payload field of a data packet: characters 4 through 23
(`recv_message[4:24]`). -/
def payloadOf (msg : List Char) : List Char :=
  (msg.drop 4).take 20

/-- One iteration of the receive loop on a nonempty received chunk
(lines 159-204 of the source, after the empty-read test): count the packet,
take the corrupt / wrong-sequence / accept branch, and return the updated
state together with the one acknowledgment packet sent.  Returns `none`
when the iteration raises an uncaught exception: `int(recv_message[0])`
on a chunk whose first character is not a digit (`ValueError`). -/
def receiverStep (st : RState) (recv_message : List Char) : Option (RState × List Char) :=
  let st := { st with total_packet_recv := st.total_packet_recv + 1 }
  if is_corrupt recv_message then
    some ({ st with total_corrupted_pkt_recv := st.total_corrupted_pkt_recv + 1,
                    total_packet_sent := st.total_packet_sent + 1 },
          make_packet ((st.ACK + 1) % 2))
  else
    match recv_message.head? with
    | none => none
    | some c =>
      match intOfChar c with
      | none => none
      | some seq_num =>
        if seq_num ≠ st.SEQ then
          some ({ st with total_packet_sent := st.total_packet_sent + 1 },
                make_packet ((st.ACK + 1) % 2))
        else
          some ({ st with data := st.data ++ payloadOf recv_message,
                          total_packet_sent := st.total_packet_sent + 1,
                          ACK := (st.ACK + 1) % 2, SEQ := (st.SEQ + 1) % 2 },
                make_packet st.ACK)

/-- The receive loop iterated over a list of nonempty chunks pulled off the
transport: threads the state through `receiverStep` and collects the
acknowledgment packets sent, in order.  `none` as soon as one iteration
raises. -/
def receiverRun (st : RState) : List (List Char) → Option (RState × List (List Char))
  | [] => some (st, [])
  | m :: ms =>
    match receiverStep st m with
    | none => none
    | some (st2, ack) =>
      match receiverRun st2 ms with
      | none => none
      | some (st3, acks) => some (st3, ack :: acks)

/-- Outcome of one blocking `clientSocket.recv(30)` call: a decoded chunk
(possibly empty, which signals end-of-stream), or one of the abrupt-close
exceptions the transport can raise mid-transfer. -/
inductive RecvEvent where
  | chunk (msg : List Char)
  | connectionAborted
  | connectionReset
deriving DecidableEq

/-- The Python exceptions that can escape or end the receive loop. -/
inductive PyError where
  | valueError
  | connectionResetError
deriving DecidableEq

/-- How the receive loop ends: a clean `break` with the final state, or an
exception propagating out of `start_receiver`. -/
inductive LoopExit where
  | clean (st : RState)
  | raised (e : PyError)
deriving DecidableEq

/-- The `while True` receive loop (lines 148-206): an empty read breaks
cleanly; a nonempty chunk runs one `receiverStep`, whose `ValueError`
escapes uncaught; `ConnectionAbortedError` is caught and breaks cleanly;
`ConnectionResetError` is not caught by any branch and escapes.  `none`
when the event list runs out while the loop is still blocked on `recv`. -/
def sessionLoop (st : RState) : List RecvEvent → Option LoopExit
  | [] => none
  | RecvEvent.chunk msg :: evs =>
    if msg.isEmpty then some (LoopExit.clean st)
    else
      match receiverStep st msg with
      | none => some (LoopExit.raised PyError.valueError)
      | some (st2, _) => sessionLoop st2 evs
  | RecvEvent.connectionAborted :: _ => some (LoopExit.clean st)
  | RecvEvent.connectionReset :: _ => some (LoopExit.raised PyError.connectionResetError)

/-- Trailing-space trim of the reassembly buffer, Python
`data.rstrip(' ')`. -/
def rstripSpaces (l : List Char) : List Char :=
  (l.reverse.dropWhile (fun c => c == ' ')).reverse

/-- What the shutdown path reports after the loop exits cleanly: the trimmed
buffer, its checksum, and the three counters (lines 217-231). -/
structure Report where
  fileData : List Char
  fileChecksum : List Char
  total_packet_sent : Nat
  total_packet_recv : Nat
  total_corrupted_pkt_recv : Nat
deriving DecidableEq

/-- Build the shutdown report from a final state. -/
def mkReport (st : RState) : Report :=
  { fileData := rstripSpaces st.data,
    fileChecksum := checksum (rstripSpaces st.data),
    total_packet_sent := st.total_packet_sent,
    total_packet_recv := st.total_packet_recv,
    total_corrupted_pkt_recv := st.total_corrupted_pkt_recv }

/-- The data phase of `start_receiver` from an arbitrary state: run the
receive loop on the transport events; a clean exit closes the socket, trims
the buffer and reports statistics (`Except.ok`), while an uncaught
exception surfaces as an error (`Except.error`). -/
def sessionRun (st : RState) (evs : List RecvEvent) : Option (Except PyError Report) :=
  match sessionLoop st evs with
  | none => none
  | some (LoopExit.clean st2) => some (Except.ok (mkReport st2))
  | some (LoopExit.raised e) => some (Except.error e)

/-- Whether the step on `msg` from `st` takes the accept branch: valid
checksum and the decoded sequence bit equal to the expected one. -/
def accepts (st : RState) (msg : List Char) : Bool :=
  checksum_verifier msg && ((msg.head?.bind intOfChar) == some st.SEQ)

/-- Number of packets the receiver accepts along a run (the steps that
append to the reassembly buffer); stops counting where the run raises. -/
def countAccepted (st : RState) : List (List Char) → Nat
  | [] => 0
  | m :: ms =>
    match receiverStep st m with
    | none => 0
    | some (st2, _) => (if accepts st m then 1 else 0) + countAccepted st2 ms

/-- A well-formed `k`-th data packet of a valid stream: 30 characters long,
valid checksum, and sequence digit `k % 2` at character 0. -/
def Wf (k : Nat) (msg : List Char) : Prop :=
  msg.length = 30 ∧ checksum_verifier msg = true ∧
    msg.head? = some (Nat.digitChar (k % 2))

instance (k : Nat) (msg : List Char) : Decidable (Wf k msg) := by
  unfold Wf; infer_instance

/-- A well-formed data packet in the paired sender's wire layout, used as a
concrete test input.  Modelled from the spec: the sender is not part of
this repository; the layout follows the wire-format description (sequence
digit at character 0, three spacer characters, twenty payload characters,
one space, five checksum characters) and the worked example in the
docstring of `checksum`. -/
def mkDataPacket (seq : Nat) (payload : List Char) : List Char :=
  let body := [Nat.digitChar (seq % 2), ' ', ' ', ' '] ++ payload ++ [' ']
  body ++ checksum body

/-- Specification-side reading of a character list as a big-endian decimal
number, used to state what `checksum`'s output denotes. -/
def charsToNat (l : List Char) : Nat :=
  l.foldl (fun a c => 10 * a + (c.toNat - 48)) 0

/-- Concrete fixture: a valid first data packet (sequence bit 0). -/
def pktA : List Char := mkDataPacket 0 (List.replicate 20 'A')

/-- Concrete fixture: a valid second data packet (sequence bit 1). -/
def pktB : List Char := mkDataPacket 1 (List.replicate 20 'B')

/-- Concrete fixture: a 30-character chunk whose checksum does not verify. -/
def badPkt : List Char := List.replicate 30 'x'

/-- Concrete fixture: the two-packet valid stream fed to the receiver. -/
def msgsW : List (List Char) := [pktA, pktB]

/-- Concrete fixture: final state after `[pktA, badPkt, pktB]`. -/
def stW : RState :=
  { data := List.replicate 20 'A' ++ List.replicate 20 'B',
    total_packet_sent := 3, total_packet_recv := 3,
    total_corrupted_pkt_recv := 1, ACK := 0, SEQ := 0 }

/-- Concrete fixture: acknowledgments sent along `[pktA, badPkt, pktB]`. -/
def acksW : List (List Char) := [make_packet 0, make_packet 0, make_packet 1]

/-! ## Facts about the checksum codec -/

theorem digits_length_le {n : Nat} (h : n < 100000) : (Nat.digits 10 n).length ≤ 5 := by
  by_contra hlen
  push_neg at hlen
  rcases Nat.eq_zero_or_pos n with rfl | hp
  · simp at hlen
  · have hb := Nat.base_pow_length_digits_le 10 n (by norm_num) (Nat.pos_iff_ne_zero.mp hp)
    have hchain : (1000000 : Nat) ≤ 10 * n := by
      calc (1000000 : Nat) = 10 ^ 6 := by norm_num
        _ ≤ 10 ^ (Nat.digits 10 n).length := Nat.pow_le_pow_right (by norm_num) hlen
        _ ≤ 10 * n := hb
    omega

theorem checksum_length {msg : List Char} (h : byteSum msg < 100000) :
    (checksum msg).length = 5 := by
  have hle : (decimalDigits (byteSum msg)).length ≤ 5 := by
    simpa [decimalDigits, decDigits_eq] using digits_length_le h
  simp only [checksum, pad5, List.length_append, List.length_replicate]
  omega

theorem digitChar_toNat_sub {d : Nat} (h : d < 10) : (Nat.digitChar d).toNat - 48 = d := by
  interval_cases d <;> decide

theorem digitChar_isDigit {d : Nat} (h : d < 10) : (Nat.digitChar d).isDigit = true := by
  interval_cases d <;> decide

theorem foldl_digitChars (ds : List Nat) (a : Nat) (hd : ∀ d ∈ ds, d < 10) :
    ((ds.map Nat.digitChar).reverse).foldl (fun x c => 10 * x + (c.toNat - 48)) a
      = a * 10 ^ ds.length + Nat.ofDigits 10 ds := by
  induction ds generalizing a with
  | nil => simp
  | cons d ds ih =>
    simp only [List.map_cons, List.reverse_cons, List.foldl_append, List.foldl_cons,
      List.foldl_nil]
    rw [ih a (fun x hx => hd x (List.mem_cons_of_mem d hx))]
    rw [digitChar_toNat_sub (hd d (List.mem_cons_self d ds))]
    rw [Nat.ofDigits_cons]
    simp only [List.length_cons, pow_succ]
    ring

theorem foldl_zeros (k : Nat) :
    (List.replicate k '0').foldl (fun x c => 10 * x + (c.toNat - 48)) 0 = 0 := by
  induction k with
  | zero => rfl
  | succ k ih => simpa [List.replicate_succ] using ih

/-- C5 counterexample: the round trip fails on the empty content, because
`checksum_verifier` rejects every message shorter than 30 characters and
the empty content plus its five checksum characters is only 5 long. -/
theorem checksum_roundtrip_cex :
    checksum_verifier (([] : List Char) ++ checksum []) = false := by decide

/-- C5 (amended): for every content of at least 25 characters whose UTF-8
byte sum stays below 100000 (so that the checksum is exactly five
characters and the message reaches the 30-character minimum),
`checksum_verifier` accepts `content ++ checksum content`. -/
theorem checksum_roundtrip (content : List Char)
    (hlen : 25 ≤ content.length) (hsum : byteSum content < 100000) :
    checksum_verifier (content ++ checksum content) = true := by
  have h5 : (checksum content).length = 5 := checksum_length hsum
  have hl : (content ++ checksum content).length = content.length + 5 := by
    simp [h5]
  unfold checksum_verifier
  rw [if_neg (by omega)]
  have hminus : (content ++ checksum content).length - 5 = content.length := by omega
  rw [hminus, List.take_left, List.drop_left]
  exact beq_self_eq_true _

/-- C5 witness: the round trip at a concrete 25-character content. -/
theorem checksum_roundtrip_witness :
    25 ≤ (List.replicate 25 'a').length ∧ byteSum (List.replicate 25 'a') < 100000 ∧
      checksum_verifier (List.replicate 25 'a' ++ checksum (List.replicate 25 'a')) = true :=
  ⟨by decide, by decide, checksum_roundtrip (List.replicate 25 'a') (by decide) (by decide)⟩

/-- C6: `checksum_verifier` accepts a message exactly when it is at least 30
characters long and its trailing five characters equal, character for
character, the checksum recomputed over all the preceding characters; in
particular every message shorter than 30 characters is rejected. -/
theorem checksum_verifier_spec (msg : List Char) :
    checksum_verifier msg = true ↔
      30 ≤ msg.length ∧
        msg.drop (msg.length - 5) = checksum (msg.take (msg.length - 5)) := by
  unfold checksum_verifier
  split
  next h =>
    constructor
    · intro hf; simp at hf
    · rintro ⟨h30, -⟩; exact absurd h30 (by omega)
  next h =>
    rw [beq_iff_eq]
    constructor
    · intro he; exact ⟨by omega, he.symm⟩
    · intro h2; exact h2.2.symm

/-- C7: for every message whose UTF-8 byte sum is below 100000, `checksum`
returns exactly five characters, all decimal digits, which read as a
big-endian decimal number give back the byte sum — i.e. the sum left-padded
with zeros to exactly five characters.  (Determinism is inherent: the
embedding is a pure function of the message.) -/
theorem checksum_padded_decimal (msg : List Char) (h : byteSum msg < 100000) :
    (checksum msg).length = 5 ∧ (∀ c ∈ checksum msg, c.isDigit = true) ∧
      charsToNat (checksum msg) = byteSum msg := by
  have hd : ∀ d ∈ decDigits (byteSum msg), d < 10 := by
    intro d hmem
    rw [decDigits_eq] at hmem
    exact Nat.digits_lt_base (by norm_num) hmem
  refine ⟨checksum_length h, ?_, ?_⟩
  · intro c hc
    simp only [checksum, pad5, decimalDigits, List.mem_append, List.mem_replicate,
      List.mem_reverse, List.mem_map] at hc
    rcases hc with ⟨-, rfl⟩ | ⟨d, hdm, rfl⟩
    · decide
    · exact digitChar_isDigit (hd d hdm)
  · unfold charsToNat checksum pad5
    rw [List.foldl_append, foldl_zeros]
    unfold decimalDigits
    rw [foldl_digitChars _ 0 hd]
    rw [decDigits_eq]
    simp [Nat.ofDigits_digits]

/-- C7 witness: the padded-decimal property at a concrete content. -/
theorem checksum_padded_decimal_witness :
    byteSum (List.replicate 25 'b') < 100000 ∧
      ((checksum (List.replicate 25 'b')).length = 5 ∧
        (∀ c ∈ checksum (List.replicate 25 'b'), c.isDigit = true) ∧
        charsToNat (checksum (List.replicate 25 'b')) = byteSum (List.replicate 25 'b')) :=
  ⟨by decide, checksum_padded_decimal (List.replicate 25 'b') (by decide)⟩

/-! ## Branch lemmas for the per-packet step -/

theorem receiverStep_corrupt (st : RState) (msg : List Char)
    (h : checksum_verifier msg = false) :
    receiverStep st msg =
      some ({ st with total_packet_recv := st.total_packet_recv + 1,
                      total_corrupted_pkt_recv := st.total_corrupted_pkt_recv + 1,
                      total_packet_sent := st.total_packet_sent + 1 },
            make_packet ((st.ACK + 1) % 2)) := by
  simp [receiverStep, is_corrupt, h]

theorem receiverStep_wrongseq (st : RState) (msg : List Char) (d : Nat)
    (hv : checksum_verifier msg = true)
    (hd : msg.head?.bind intOfChar = some d) (hne : d ≠ st.SEQ) :
    receiverStep st msg =
      some ({ st with total_packet_recv := st.total_packet_recv + 1,
                      total_packet_sent := st.total_packet_sent + 1 },
            make_packet ((st.ACK + 1) % 2)) := by
  cases hh : msg.head? with
  | none => rw [hh] at hd; simp at hd
  | some c =>
    rw [hh] at hd
    simp only [Option.some_bind] at hd
    simp [receiverStep, is_corrupt, hv, hh, hd, hne]

theorem receiverStep_accept (st : RState) (msg : List Char)
    (hv : checksum_verifier msg = true)
    (hd : msg.head?.bind intOfChar = some st.SEQ) :
    receiverStep st msg =
      some ({ st with data := st.data ++ payloadOf msg,
                      total_packet_recv := st.total_packet_recv + 1,
                      total_packet_sent := st.total_packet_sent + 1,
                      ACK := (st.ACK + 1) % 2, SEQ := (st.SEQ + 1) % 2 },
            make_packet st.ACK) := by
  cases hh : msg.head? with
  | none => rw [hh] at hd; simp at hd
  | some c =>
    rw [hh] at hd
    simp only [Option.some_bind] at hd
    simp [receiverStep, is_corrupt, hv, hh, hd]

theorem receiverStep_noDigit (st : RState) (msg : List Char)
    (hv : checksum_verifier msg = true)
    (hd : msg.head?.bind intOfChar = none) :
    receiverStep st msg = none := by
  cases hh : msg.head? with
  | none => simp [receiverStep, is_corrupt, hv, hh]
  | some c =>
    rw [hh] at hd
    simp only [Option.some_bind] at hd
    simp [receiverStep, is_corrupt, hv, hh, hd]

/-! ## Error-handling and duplicate-handling claims -/

/-- C2: on a chunk whose checksum fails to verify, the step increments the
corrupted-packet counter by exactly one, sends exactly one acknowledgment
carrying `(ACK + 1) % 2`, and leaves `SEQ`, `ACK` and the reassembly
buffer untouched; a following checksum-valid chunk carrying the expected
sequence bit is then accepted normally, acknowledged with the original
(unchanged) `ACK`. -/
theorem corrupt_packet_nak (st : RState) (msg msg2 : List Char)
    (hc : checksum_verifier msg = false)
    (hv2 : checksum_verifier msg2 = true)
    (hs2 : msg2.head?.bind intOfChar = some st.SEQ) :
    receiverStep st msg =
      some ({ st with total_packet_recv := st.total_packet_recv + 1,
                      total_corrupted_pkt_recv := st.total_corrupted_pkt_recv + 1,
                      total_packet_sent := st.total_packet_sent + 1 },
            make_packet ((st.ACK + 1) % 2)) ∧
    receiverStep { st with total_packet_recv := st.total_packet_recv + 1,
                           total_corrupted_pkt_recv := st.total_corrupted_pkt_recv + 1,
                           total_packet_sent := st.total_packet_sent + 1 } msg2 =
      some ({ st with data := st.data ++ payloadOf msg2,
                      total_packet_recv := st.total_packet_recv + 1 + 1,
                      total_corrupted_pkt_recv := st.total_corrupted_pkt_recv + 1,
                      total_packet_sent := st.total_packet_sent + 1 + 1,
                      ACK := (st.ACK + 1) % 2, SEQ := (st.SEQ + 1) % 2 },
            make_packet st.ACK) := by
  refine ⟨receiverStep_corrupt st msg hc, ?_⟩
  exact receiverStep_accept _ msg2 hv2 hs2

/-- C2 witness: a corrupted 30-character chunk followed by a valid packet,
from the initial state. -/
theorem corrupt_packet_nak_witness :
    checksum_verifier badPkt = false ∧ checksum_verifier pktA = true ∧
      pktA.head?.bind intOfChar = some initState.SEQ ∧
      (receiverStep initState badPkt =
        some ({ initState with
                  total_packet_recv := initState.total_packet_recv + 1,
                  total_corrupted_pkt_recv := initState.total_corrupted_pkt_recv + 1,
                  total_packet_sent := initState.total_packet_sent + 1 },
              make_packet ((initState.ACK + 1) % 2)) ∧
      receiverStep { initState with
                       total_packet_recv := initState.total_packet_recv + 1,
                       total_corrupted_pkt_recv := initState.total_corrupted_pkt_recv + 1,
                       total_packet_sent := initState.total_packet_sent + 1 } pktA =
        some ({ initState with
                  data := initState.data ++ payloadOf pktA,
                  total_packet_recv := initState.total_packet_recv + 1 + 1,
                  total_corrupted_pkt_recv := initState.total_corrupted_pkt_recv + 1,
                  total_packet_sent := initState.total_packet_sent + 1 + 1,
                  ACK := (initState.ACK + 1) % 2, SEQ := (initState.SEQ + 1) % 2 },
              make_packet initState.ACK)) :=
  ⟨by decide, by decide, by decide,
    corrupt_packet_nak initState badPkt pktA (by decide) (by decide) (by decide)⟩

/-- C3: on a chunk whose checksum verifies but whose sequence bit differs
from the expected one, the step sends exactly one acknowledgment carrying
`(ACK + 1) % 2`, appends nothing to the reassembly buffer, advances
neither `SEQ` nor `ACK`, and does not touch the corrupted-packet
counter. -/
theorem duplicate_packet_nak (st : RState) (msg : List Char) (d : Nat)
    (hv : checksum_verifier msg = true)
    (hd : msg.head?.bind intOfChar = some d) (hne : d ≠ st.SEQ) :
    receiverStep st msg =
      some ({ st with total_packet_recv := st.total_packet_recv + 1,
                      total_packet_sent := st.total_packet_sent + 1 },
            make_packet ((st.ACK + 1) % 2)) :=
  receiverStep_wrongseq st msg d hv hd hne

/-- C3 witness: a valid packet carrying sequence bit 1 while the receiver
expects 0. -/
theorem duplicate_packet_nak_witness :
    checksum_verifier pktB = true ∧ pktB.head?.bind intOfChar = some 1 ∧
      1 ≠ initState.SEQ ∧
      receiverStep initState pktB =
        some ({ initState with
                  total_packet_recv := initState.total_packet_recv + 1,
                  total_packet_sent := initState.total_packet_sent + 1 },
              make_packet ((initState.ACK + 1) % 2)) :=
  ⟨by decide, by decide, by decide,
    duplicate_packet_nak initState pktB 1 (by decide) (by decide) (by decide)⟩

/-! ## The acknowledgment packet encoder -/

/-- C8 counterexample: character 0 of the encoded ack packet is a space,
not the ack bit digit — the digit sits at character 2. -/
theorem make_packet_head_cex :
    (make_packet 0).head? = some ' ' ∧ (' ' : Char) ≠ Nat.digitChar 0 := by decide

/-- C8 (amended): for every ack bit in `{0, 1}` the encoder produces a
packet of exactly 30 characters: two leading spaces, the ack bit digit at
character 2, a space at character 3, twenty placeholder spaces as the
payload region followed by a space, and as the last five characters the
checksum of the 25 preceding ones — so the packet passes checksum
verification. -/
theorem make_packet_spec (b : Nat) (hb : b = 0 ∨ b = 1) :
    (make_packet b).length = 30 ∧
      (make_packet b).take 2 = [' ', ' '] ∧
      (make_packet b)[2]? = some (Nat.digitChar b) ∧
      (make_packet b)[3]? = some ' ' ∧
      ((make_packet b).drop 4).take 21 = List.replicate 20 ' ' ++ [' '] ∧
      (make_packet b).drop 25 = checksum ((make_packet b).take 25) ∧
      checksum_verifier (make_packet b) = true := by
  rcases hb with rfl | rfl <;> exact (by decide)

/-- C8 witness: the amended layout at ack bit 0. -/
theorem make_packet_spec_witness :
    ((0 : Nat) = 0 ∨ (0 : Nat) = 1) ∧
      ((make_packet 0).length = 30 ∧
        (make_packet 0).take 2 = [' ', ' '] ∧
        (make_packet 0)[2]? = some (Nat.digitChar 0) ∧
        (make_packet 0)[3]? = some ' ' ∧
        ((make_packet 0).drop 4).take 21 = List.replicate 20 ' ' ++ [' '] ∧
        (make_packet 0).drop 25 = checksum ((make_packet 0).take 25) ∧
        checksum_verifier (make_packet 0) = true) :=
  ⟨Or.inl rfl, make_packet_spec 0 (Or.inl rfl)⟩

/-! ## Session shutdown behaviour -/

/-- C9 counterexample: a connection reset mid-transfer is an abrupt-close
variant, yet it is not caught by the loop's single
`except ConnectionAbortedError` clause: the session surfaces an error
instead of proceeding to the clean shutdown path. -/
theorem abrupt_close_cex :
    sessionRun initState [RecvEvent.connectionReset] =
      some (Except.error PyError.connectionResetError) := by rfl

/-- C9 (amended): only the `ConnectionAbortedError` variant of an abrupt
close is treated exactly like a clean empty read — the loop breaks, the
session closes the socket, trims the buffer and reports statistics with no
error surfaced; a `ConnectionResetError` (or the `ValueError` of C10)
propagates instead. -/
theorem aborted_is_clean_eof (st : RState) (evs : List RecvEvent) :
    sessionRun st (RecvEvent.connectionAborted :: evs) = some (Except.ok (mkReport st)) ∧
      sessionRun st (RecvEvent.chunk [] :: evs) = some (Except.ok (mkReport st)) := by
  constructor <;> rfl

/-! ## Partiality of the per-packet step -/

/-- C10: the receiver's own ack-packet format is a 30-character message
that passes `checksum_verifier` yet begins with a space, which is not a
decimal digit, so the sequence-bit extraction `int(recv_message[0])`
raises a `ValueError` that no branch of the receive loop handles: the
per-packet step is partial over checksum-valid inputs. -/
theorem ack_format_crashes_step :
    checksum_verifier (make_packet 0) = true ∧
      (make_packet 0).head? = some ' ' ∧
      Char.isDigit ' ' = false ∧
      receiverStep initState (make_packet 0) = none ∧
      sessionLoop initState [RecvEvent.chunk (make_packet 0)] =
        some (LoopExit.raised PyError.valueError) := by decide

/-! ## The receiver fed a valid alternating-bit stream -/

theorem intOfChar_digitChar_mod2 (k : Nat) :
    intOfChar (Nat.digitChar (k % 2)) = some (k % 2) := by
  rcases Nat.mod_two_eq_zero_or_one k with h | h <;> rw [h] <;> decide

theorem receiverRun_valid (msgs : List (List Char)) :
    ∀ (k : Nat) (d : List Char) (s r c : Nat),
      (∀ i (h : i < msgs.length), Wf (k + i) (msgs.get ⟨i, h⟩)) →
      receiverRun (RState.mk d s r c (k % 2) (k % 2)) msgs =
        some (RState.mk (d ++ (msgs.map payloadOf).flatten) (s + msgs.length)
                (r + msgs.length) c ((k + msgs.length) % 2) ((k + msgs.length) % 2),
              (List.range msgs.length).map (fun i => make_packet ((k + i) % 2))) := by
  induction msgs with
  | nil =>
    intro k d s r c _
    simp [receiverRun]
  | cons m ms ih =>
    intro k d s r c hW
    obtain ⟨-, hcv, hhd⟩ := hW 0 (by simp)
    have hio : m.head?.bind intOfChar = some (k % 2) := by
      rw [show (m :: ms).get ⟨0, by simp⟩ = m from rfl] at hhd
      rw [hhd, Option.some_bind, Nat.add_zero, intOfChar_digitChar_mod2]
    have hstep : receiverStep (RState.mk d s r c (k % 2) (k % 2)) m =
        some (RState.mk (d ++ payloadOf m) (s + 1) (r + 1) c
                ((k + 1) % 2) ((k + 1) % 2),
              make_packet (k % 2)) := by
      have hacc := receiverStep_accept (RState.mk d s r c (k % 2) (k % 2)) m hcv hio
      simpa [show (k % 2 + 1) % 2 = (k + 1) % 2 by omega] using hacc
    have hW2 : ∀ i (h : i < ms.length), Wf (k + 1 + i) (ms.get ⟨i, h⟩) := by
      intro i h
      have hx := hW (i + 1) (by simpa using Nat.succ_lt_succ h)
      simpa [show k + (i + 1) = k + 1 + i by omega] using hx
    have hih := ih (k + 1) (d ++ payloadOf m) (s + 1) (r + 1) c hW2
    simp only [receiverRun, hstep, hih]
    simp only [List.map_cons, List.flatten_cons, List.length_cons,
      List.range_succ_eq_map, List.map_map, Option.some.injEq, Prod.mk.injEq,
      RState.mk.injEq, List.append_assoc, List.cons.injEq, Function.comp]
    refine ⟨⟨trivial, by omega, by omega, trivial, by omega, by omega⟩, ?_, ?_⟩
    · simp
    · refine List.map_congr_left ?_
      intro i _
      congr 1
      omega

/-- C1: started in its initial state, fed any stream of `N` well-formed
30-character packets with valid checksums and sequence bits alternating
`0,1,0,1,...`, the receiver accepts all of them: the run succeeds, the
reassembly buffer is exactly the concatenation of the payload fields
(characters 4 through 23 of each packet) in arrival order, exactly `N`
acknowledgments are emitted carrying bits `0,1,0,1,...` — each one
`make_packet` of the not-yet-advanced ack bit — and both state bits end at
`N % 2` with no packet counted as corrupted. -/
theorem receiver_accepts_valid_stream (msgs : List (List Char))
    (hW : ∀ i (h : i < msgs.length), Wf i (msgs.get ⟨i, h⟩)) :
    receiverRun initState msgs =
      some (RState.mk ((msgs.map payloadOf).flatten) msgs.length msgs.length 0
              (msgs.length % 2) (msgs.length % 2),
            (List.range msgs.length).map (fun i => make_packet (i % 2))) := by
  have h := receiverRun_valid msgs 0 [] 0 0 0 (by simpa using hW)
  simpa using h

/-- C1 witness: the two-packet valid stream `msgsW`. -/
theorem receiver_accepts_valid_stream_witness :
    (∀ i (h : i < msgsW.length), Wf i (msgsW.get ⟨i, h⟩)) ∧
      receiverRun initState msgsW =
        some (RState.mk ((msgsW.map payloadOf).flatten) msgsW.length msgsW.length 0
                (msgsW.length % 2) (msgsW.length % 2),
              (List.range msgsW.length).map (fun i => make_packet (i % 2))) := by
  have hW : ∀ i (h : i < msgsW.length), Wf i (msgsW.get ⟨i, h⟩) := by decide
  exact ⟨hW, receiver_accepts_valid_stream msgsW hW⟩

/-! ## The state-bit invariant -/

theorem receiverRun_cons_inv (st : RState) (m : List Char) (ms : List (List Char))
    (st2 : RState) (acks : List (List Char))
    (h : receiverRun st (m :: ms) = some (st2, acks)) :
    ∃ st1 pkt acks1, receiverStep st m = some (st1, pkt) ∧
      receiverRun st1 ms = some (st2, acks1) ∧ acks = pkt :: acks1 := by
  unfold receiverRun at h
  cases hs : receiverStep st m with
  | none => rw [hs] at h; simp at h
  | some p =>
    obtain ⟨st1, pkt⟩ := p
    rw [hs] at h
    dsimp only at h
    cases hr : receiverRun st1 ms with
    | none => rw [hr] at h; simp at h
    | some q =>
      obtain ⟨st3, acks1⟩ := q
      rw [hr] at h
      simp only [Option.some.injEq, Prod.mk.injEq] at h
      obtain ⟨h1, h2⟩ := h
      exact ⟨st1, pkt, acks1, rfl, by rw [hr, h1], h2.symm⟩

theorem countAccepted_cons (st : RState) (m : List Char) (ms : List (List Char))
    (st1 : RState) (pkt : List Char) (h : receiverStep st m = some (st1, pkt)) :
    countAccepted st (m :: ms) =
      (if accepts st m then 1 else 0) + countAccepted st1 ms := by
  conv_lhs => rw [countAccepted]
  rw [h]

theorem receiverStep_shape (st : RState) (msg : List Char) (st2 : RState) (pkt : List Char)
    (h : receiverStep st msg = some (st2, pkt)) :
    (accepts st msg = true ∧ st2.SEQ = (st.SEQ + 1) % 2 ∧ st2.ACK = (st.ACK + 1) % 2) ∨
      (accepts st msg = false ∧ st2.SEQ = st.SEQ ∧ st2.ACK = st.ACK) := by
  by_cases hcv : checksum_verifier msg = true
  · cases hb : msg.head?.bind intOfChar with
    | none => rw [receiverStep_noDigit st msg hcv hb] at h; cases h
    | some dd =>
      by_cases hdd : dd = st.SEQ
      · subst hdd
        rw [receiverStep_accept st msg hcv hb] at h
        simp only [Option.some.injEq, Prod.mk.injEq] at h
        obtain ⟨h1, -⟩ := h
        left
        refine ⟨?_, ?_, ?_⟩
        · simp [accepts, hcv, hb]
        · rw [← h1]
        · rw [← h1]
      · rw [receiverStep_wrongseq st msg dd hcv hb hdd] at h
        simp only [Option.some.injEq, Prod.mk.injEq] at h
        obtain ⟨h1, -⟩ := h
        right
        refine ⟨?_, ?_, ?_⟩
        · simp [accepts, hcv, hb, hdd]
        · rw [← h1]
        · rw [← h1]
  · have hcv2 : checksum_verifier msg = false := by simpa using hcv
    rw [receiverStep_corrupt st msg hcv2] at h
    simp only [Option.some.injEq, Prod.mk.injEq] at h
    obtain ⟨h1, -⟩ := h
    right
    refine ⟨?_, ?_, ?_⟩
    · simp [accepts, hcv2]
    · rw [← h1]
    · rw [← h1]

theorem receiverRun_inv (msgs : List (List Char)) :
    ∀ (st st2 : RState) (acks : List (List Char)),
      st.SEQ = st.ACK → st.SEQ < 2 →
      receiverRun st msgs = some (st2, acks) →
      st2.SEQ = st2.ACK ∧ st2.SEQ < 2 ∧
        st2.SEQ = (st.SEQ + countAccepted st msgs) % 2 := by
  induction msgs with
  | nil =>
    intro st st2 acks hSA h2 hrun
    simp only [receiverRun, Option.some.injEq, Prod.mk.injEq] at hrun
    obtain ⟨rfl, -⟩ := hrun
    refine ⟨hSA, h2, ?_⟩
    simp only [countAccepted]
    omega
  | cons m ms ih =>
    intro st st2 acks hSA h2 hrun
    obtain ⟨st1, pkt, acks1, hs, hr, rfl⟩ := receiverRun_cons_inv st m ms st2 acks hrun
    rw [countAccepted_cons st m ms st1 pkt hs]
    rcases receiverStep_shape st m st1 pkt hs with ⟨ha, hS, hA⟩ | ⟨ha, hS, hA⟩
    · have h1 : st1.SEQ = st1.ACK := by rw [hS, hA, hSA]
      have h12 : st1.SEQ < 2 := by omega
      obtain ⟨g1, g2, g3⟩ := ih st1 st2 acks1 h1 h12 hr
      refine ⟨g1, g2, ?_⟩
      rw [g3, hS, if_pos ha]
      omega
    · have h1 : st1.SEQ = st1.ACK := by rw [hS, hA, hSA]
      have h12 : st1.SEQ < 2 := by omega
      obtain ⟨g1, g2, g3⟩ := ih st1 st2 acks1 h1 h12 hr
      refine ⟨g1, g2, ?_⟩
      rw [g3, hS, if_neg (by simp [ha])]
      omega

/-- C4: starting from the initial state (`SEQ = 0`, `ACK = 0`), after the
receiver processes any sequence of inbound chunks — valid, corrupted or
duplicate, in any order — along which the loop completes, `SEQ` and `ACK`
are equal to each other and to the number of packets accepted so far
modulo 2. -/
theorem seq_ack_accepted_invariant (msgs : List (List Char)) (st2 : RState)
    (acks : List (List Char)) (h : receiverRun initState msgs = some (st2, acks)) :
    st2.SEQ = st2.ACK ∧ st2.SEQ = countAccepted initState msgs % 2 := by
  obtain ⟨g1, -, g3⟩ := receiverRun_inv msgs initState st2 acks rfl (by decide) h
  exact ⟨g1, by simpa [initState] using g3⟩

/-- C4 witness: a run with two accepted packets and one corrupted chunk. -/
theorem seq_ack_accepted_invariant_witness :
    receiverRun initState [pktA, badPkt, pktB] = some (stW, acksW) ∧
      stW.SEQ = stW.ACK ∧ stW.SEQ = countAccepted initState [pktA, badPkt, pktB] % 2 := by
  have h : receiverRun initState [pktA, badPkt, pktB] = some (stW, acksW) := by decide
  exact ⟨h, seq_ack_accepted_invariant [pktA, badPkt, pktB] stW acksW h⟩
